import Mathlib

/-!
Shallow embedding of the write pipeline of the AllTaskDashboard application:
the Apps Script backend (`doPost`, `processQueue`, `_processSingleRequest`,
`findRow`, `getOrCreateFolder`) and the client-side in-flight marker cleanup
from `TaskDashboardSystem`.

Conventions of the embedding:
* JavaScript values flowing through payloads are modelled by `JVal`
  (JSON scalars plus an opaque `jdate` timestamp used for history rows).
  Numbers are modelled as integers; the claims under scrutiny only rely on
  JavaScript truthiness, which `JVal.truthy` captures.
* A spreadsheet sheet is a list of rows of cells, the first row being the
  header row.  `getLastColumn` is modelled as the header width (sheets are
  rectangular in the model, as `getValues` returns rectangular arrays).
* Platform services (Drive, LockService, timestamps) are modelled as
  explicit state: `Drive` holds folders of files and a counter issuing
  fresh share URLs; `new Date()` is a `Nat` parameter threaded through;
  the drain cycle is modelled as the body that runs while the lock is held
  (lock contention is outside the claims below).
* Queue cells only ever flow into `JSON.parse`, so a queue entry is
  modelled by its parse outcome: a well-formed serialized request
  (`QEntry.good`), a malformed string (`QEntry.bad`), or an empty cell
  (`QEntry.empty`).
* Fallible code returns `Except String`; `console.log` diagnostics carry
  no program state and are not modelled.
-/

namespace AllTask

/-- JavaScript/JSON scalar values as they appear in payloads and sheet cells. -/
inductive JVal where
  | jstr (s : String)
  | jnum (n : Int)
  | jbool (b : Bool)
  | jnull
  | jdate (t : Nat)
deriving DecidableEq, Repr

/-- JavaScript `String(v)` coercion, restricted to the scalar values of the model. -/
def JVal.toJSString : JVal → String
  | .jstr s => s
  | .jnum n => toString n
  | .jbool b => if b then "true" else "false"
  | .jnull => "null"
  | .jdate t => "Date(" ++ toString t ++ ")"

/-- JavaScript truthiness of a scalar value. -/
def JVal.truthy : JVal → Bool
  | .jstr s => !(s == "")
  | .jnum n => !(n == 0)
  | .jbool b => b
  | .jnull => false
  | .jdate _ => true

/-- ASCII lowercasing of one character (`toLowerCase` on the data in play). -/
def lowerChar (c : Char) : Char :=
  if 'A' ≤ c ∧ c ≤ 'Z' then Char.ofNat (c.toNat + 32) else c

/-- Leading and trailing whitespace removal on a character list. -/
def trimChars (l : List Char) : List Char :=
  ((l.dropWhile Char.isWhitespace).reverse.dropWhile Char.isWhitespace).reverse

/-- JavaScript `s.trim()`, implemented structurally on the character list so
that concrete instances evaluate inside proofs. -/
def jsTrim (s : String) : String := ⟨trimChars s.data⟩

/-- The `String(x).trim().toLowerCase()` normalization applied throughout the source. -/
def norm (s : String) : String := ⟨(trimChars s.data).map lowerChar⟩

/-- A JSON object payload: field names mapped to scalar values, in insertion order. -/
abbrev Payload := List (String × JVal)

/-- Lookup in the normalized copy of a payload
(`normalizedNewData[k]` after `for key in data: normalized[norm key] = data[key]`):
later insertions of the same normalized key overwrite earlier ones, so the
last binding whose normalized key matches wins. -/
def lookupNorm (data : Payload) (k : String) : Option JVal :=
  (data.reverse.find? (fun p => norm p.1 == k)).map (·.2)

/-- JavaScript property assignment `obj[k] = v`: replaces the value of an
existing identical key in place, otherwise appends the binding. -/
def jsSet (data : Payload) (k : String) (v : JVal) : Payload :=
  if data.any (fun p => p.1 == k) then
    data.map (fun p => if p.1 == k then (k, v) else p)
  else
    data ++ [(k, v)]

/-- The `x || ""` guard used when building rows: a missing or falsy value
becomes the empty string. -/
def orEmpty (x : Option JVal) : JVal :=
  match x with
  | none => .jstr ""
  | some v => if v.truthy then v else .jstr ""

/-- Row construction against pre-normalized header names
(`normalizedHeaders.map(h => normalizedNewData[h] || "")`). -/
def buildRowN (normHeaders : List String) (data : Payload) : List JVal :=
  normHeaders.map (fun h => orEmpty (lookupNorm data h))

/-- Row construction against raw header cells
(`headers.map(h => normalizedNewData[String(h).trim().toLowerCase()] || "")`). -/
def buildRow (headers : List JVal) (data : Payload) : List JVal :=
  buildRowN (headers.map (fun h => norm h.toJSString)) data

/-- A sheet: list of rows of cells; the first row is the header row. -/
structure Sheet where
  rows : List (List JVal)
deriving DecidableEq, Repr

/-- `sheet.getLastColumn()`, modelled as the header width. -/
def lastColumn (s : Sheet) : Nat := (s.rows.headD []).length

/-- Per-sheet configuration, mirroring the `SHEET_CONFIG` literal. -/
structure SheetConfig where
  spreadsheetId : String
  matchColumn : String
  matchColumnIndex : Option Nat := none
  readOnlyColumns : List String := []
deriving DecidableEq, Repr

def MASTER_SHEET_ID : String := "1XTc_cmSnyfAOduFTqpjnbAI8-dMgNz2LCBv_8DFTeNs"
def DELEGATION_SHEET_ID : String := "1Znih9FtcuqTJSJtS7peoBuJ8TijOXQl9eiWrGcAmXAg"
def TASK_ATTACHMENTS_FOLDER_NAME : String := "Task Attachments"
def QUEUE_SHEET_NAME : String := "RequestQueue"
def BATCH_SIZE : Nat := 50

/-- The `SHEET_CONFIG` table from the source. -/
def SHEET_CONFIG : List (String × SheetConfig) :=
  [ ("Task", { spreadsheetId := MASTER_SHEET_ID, matchColumn := "Task" }),
    ("Master Data", { spreadsheetId := MASTER_SHEET_ID, matchColumn := "Task ID",
                      matchColumnIndex := some 1, readOnlyColumns := ["pc"] }),
    ("Done Task Status", { spreadsheetId := MASTER_SHEET_ID, matchColumn := "Task ID" }),
    ("Working Task Form", { spreadsheetId := DELEGATION_SHEET_ID, matchColumn := "Task ID",
                            matchColumnIndex := some 8, readOnlyColumns := ["delegate email"] }) ]

/-- `SHEET_CONFIG[sheetName]`. -/
def lookupConfig (name : String) : Option SheetConfig :=
  (SHEET_CONFIG.find? (fun p => p.1 == name)).map (·.2)

/-! ## findRow -/

/-- Resolution of the match column by header name: normalize the header row
and take `indexOf` of the normalized match column name. -/
def resolveByName (s : Sheet) (cfg : SheetConfig) : Except String Nat :=
  let headers := s.rows.headD []
  match (headers.map (fun h => norm h.toJSString)).findIdx? (· == norm cfg.matchColumn) with
  | some i => .ok i
  | none => .error ("Could not find match column '" ++ cfg.matchColumn ++ "'.")

/-- Resolution of the 0-based match column index from the configuration;
a configured `matchColumnIndex` is 1-based and bounds-checked against the
sheet width (`0` is falsy in JavaScript and falls back to the name branch). -/
def resolveMatchIndex (s : Sheet) (cfg : SheetConfig) : Except String Nat :=
  match cfg.matchColumnIndex with
  | some mci =>
      if mci = 0 then resolveByName s cfg
      else
        let idx := mci - 1
        if lastColumn s ≤ idx then
          .error ("Configuration error: Invalid matchColumnIndex '" ++ toString mci ++ "'.")
        else .ok idx
  | none => resolveByName s cfg

/-- One iteration test of the `findRow` scan: data row `i` matches when it
extends past the match column and its normalized cell is non-empty and equal
to the normalized match value. -/
def rowMatches (rows : List (List JVal)) (idx : Nat) (nmv : String) (i : Nat) : Bool :=
  match rows.get? i with
  | some r =>
      decide (idx < r.length) &&
      (let c := norm (r.getD idx (JVal.jstr "")).toJSString
       !(c == "") && c == nmv)
  | none => false

/-- The bottom-to-top scan `for (var i = data.length - 1; i > 0; i--)`,
checking indices `k, k-1, ..., 1`. -/
def scanFrom (rows : List (List JVal)) (idx : Nat) (nmv : String) : Nat → Option Nat
  | 0 => none
  | k + 1 => if rowMatches rows idx nmv (k + 1) then some (k + 1) else scanFrom rows idx nmv k

/-- The data-row index (0-based into `rows`) returned by the `findRow` scan. -/
def findRowCore (rows : List (List JVal)) (idx : Nat) (nmv : String) : Option Nat :=
  scanFrom rows idx nmv (rows.length - 1)

/-- `findRow(sheet, config, matchValue)`: resolves the match column, then
scans bottom-to-top; returns the 1-based row number, or `-1` when not found. -/
def findRow (s : Sheet) (cfg : SheetConfig) (matchValue : String) : Except String Int :=
  match resolveMatchIndex s cfg with
  | .error m => .error m
  | .ok idx =>
      match findRowCore s.rows idx (norm matchValue) with
      | some i => .ok ((i : Int) + 1)
      | none => .ok (-1)

/-! ## Commands, platform state -/

/-- `historyRecord` wire object.  Absent and falsy string fields behave
identically under the `|| 'N/A'` guards, so both are modelled as `""`. -/
structure HistoryRecord where
  systemType : String
  task : String
  changedBy : String
  change : String
deriving DecidableEq, Repr

/-- The `x || 'N/A'` guard applied to history record fields. -/
def orNA (s : String) : String := if s = "" then "N/A" else s

/-- One appended history row: `[new Date(), systemType, task, changedBy, change]`. -/
def histRow (now : Nat) (rec : HistoryRecord) : List JVal :=
  [.jdate now, .jstr (orNA rec.systemType), .jstr (orNA rec.task),
   .jstr (orNA rec.changedBy), .jstr (orNA rec.change)]

/-- `attachment` wire object.  `content` carries the base64 text; decoding is
a platform bijection and the decoded bytes are represented by the text itself. -/
structure Attachment where
  fileName : String
  mimeType : String
  content : String
deriving DecidableEq, Repr

/-- The parsed request envelope (the command wire format). `matchValue` is the
already-stringified value the source passes through `String(...)`. -/
structure Request where
  action : String
  sheetName : String
  newData : Option Payload := none
  newDatas : Option (List Payload) := none
  matchValue : String := ""
  updatedData : Payload := []
  attachment : Option Attachment := none
  historyRecord : Option HistoryRecord := none
  historyRecords : Option (List HistoryRecord) := none
deriving DecidableEq, Repr

/-- A queue cell, modelled by its `JSON.parse` outcome: a serialized request,
a malformed string, or an empty cell. -/
inductive QEntry where
  | good (r : Request)
  | bad (s : String)
  | empty
deriving DecidableEq, Repr

/-- A file persisted in Drive. -/
structure DriveFile where
  fileName : String
  mimeType : String
  content : String
  url : String
deriving DecidableEq, Repr

/-- The Drive service state: named folders of files plus a counter issuing
fresh share URLs. -/
structure Drive where
  folders : List (String × List DriveFile)
  nextId : Nat
deriving DecidableEq, Repr

/-- Association-list lookup of the first binding for a key. -/
def alGet {α : Type} (l : List (String × α)) (k : String) : Option α :=
  (l.find? (fun p => p.1 == k)).map (·.2)

/-- Association-list update of the first binding for a key, inserting at the
tail when absent. -/
def alSet {α : Type} : List (String × α) → String → α → List (String × α)
  | [], k, v => [(k, v)]
  | (k', v') :: t, k, v =>
      if k' == k then (k, v) :: t else (k', v') :: alSet t k v

/-- `getOrCreateFolder` followed by `createFile` and `setSharing`: ensures the
folder exists, stores the file there, and returns the new share URL. -/
def drivePersist (d : Drive) (a : Attachment) : Drive × String :=
  let url := "https://drive.google.com/file/d/" ++ toString d.nextId
  let file : DriveFile := ⟨a.fileName, a.mimeType, a.content, url⟩
  let existing := (alGet d.folders TASK_ATTACHMENTS_FOLDER_NAME).getD []
  (⟨alSet d.folders TASK_ATTACHMENTS_FOLDER_NAME (existing ++ [file]), d.nextId + 1⟩, url)

/-- The backend-visible world: the two spreadsheets' named sheets, the
request queue sheet (`none` until first created), and the Drive state. -/
structure World where
  master : List (String × Sheet)
  delegation : List (String × Sheet)
  queue : Option (List QEntry)
  drive : Drive
deriving DecidableEq, Repr

/-- `SpreadsheetApp.openById(ssid).getSheetByName(name)`. -/
def World.getSheet (w : World) (ssid name : String) : Option Sheet :=
  if ssid = MASTER_SHEET_ID then alGet w.master name
  else if ssid = DELEGATION_SHEET_ID then alGet w.delegation name
  else none

/-- Functional update of one named sheet in the identified spreadsheet. -/
def World.setSheet (w : World) (ssid name : String) (s : Sheet) : World :=
  if ssid = MASTER_SHEET_ID then { w with master := alSet w.master name s }
  else if ssid = DELEGATION_SHEET_ID then { w with delegation := alSet w.delegation name s }
  else w

/-! ## The synchronous executor `_processSingleRequest` -/

/-- The attachment block of `_processSingleRequest`: for any request carrying
an attachment it decodes and persists the file, then injects the share URL
under `'Attachment URL'` into `newData` when `newData` is present. -/
def processAttachment (r : Request) (w : World) : Request × World :=
  match r.attachment with
  | none => (r, w)
  | some a =>
      let (d1, url) := drivePersist w.drive a
      ({ r with newData := r.newData.map (fun nd => jsSet nd "Attachment URL" (.jstr url)) },
       { w with drive := d1 })

/-- The net effect on one row of the `update` branch: every header column
whose normalized name is read-only is skipped; every other column present in
the normalized payload is overwritten; cells beyond the header width are
untouched. -/
def updateCells (headers : List JVal) (readOnly : List String) (upd : Payload)
    (row : List JVal) : List JVal :=
  ((List.range headers.length).map (fun j =>
    let nh := norm (headers.getD j (JVal.jstr "")).toJSString
    let old := row.getD j (JVal.jstr "")
    if (readOnly.map norm).contains nh then old
    else
      match lookupNorm upd nh with
      | some v => v
      | none => old)) ++ row.drop headers.length

/-- History records collected by the synchronous path:
`historyRecord` (if present) followed by the `historyRecords` array. -/
def collectHistory (r : Request) : List HistoryRecord :=
  (match r.historyRecord with
   | some h => [h]
   | none => []) ++ r.historyRecords.getD []

/-- The `switch (request.action)` of `_processSingleRequest`, acting on the
target sheet. -/
def applyAction (r : Request) (cfg : SheetConfig) (s : Sheet) (headers : List JVal) :
    Except String Sheet :=
  if r.action = "create" then
    .ok ⟨s.rows ++ [buildRow headers (r.newData.getD [])]⟩
  else if r.action = "batchCreate" then
    match r.newDatas with
    | none => .error "batchCreate requires a 'newDatas' array."
    | some ds => .ok ⟨s.rows ++ ds.map (buildRow headers)⟩
  else if r.action = "update" then
    match findRow s cfg r.matchValue with
    | .error m => .error m
    | .ok k =>
        if k = -1 then
          .error ("Row with " ++ cfg.matchColumn ++ " = '" ++ r.matchValue ++
                  "' not found to update in '" ++ jsTrim r.sheetName ++ "'.")
        else .ok ⟨s.rows.set (k.toNat - 1) (updateCells headers cfg.readOnlyColumns
                    r.updatedData (s.rows.getD (k.toNat - 1) []))⟩
  else if r.action = "delete" then
    match findRow s cfg r.matchValue with
    | .error m => .error m
    | .ok k =>
        if k = -1 then .ok s
        else .ok ⟨s.rows.eraseIdx (k.toNat - 1)⟩
  else .error ("Invalid action: '" ++ r.action ++ "'.")

/-- `_processSingleRequest`: config and sheet resolution, attachment handling,
the action switch, then history logging.  Errors are propagated to `doPost`. -/
def _processSingleRequest (r0 : Request) (w0 : World) (now : Nat) : Except String World :=
  let sheetName := jsTrim r0.sheetName
  if sheetName = "" then .error "Request is missing 'sheetName'."
  else
    match lookupConfig sheetName with
    | none => .error ("Configuration for sheet '" ++ sheetName ++ "' not found.")
    | some cfg =>
        match w0.getSheet cfg.spreadsheetId sheetName with
        | none => .error ("Sheet '" ++ sheetName ++ "' not found in spreadsheet.")
        | some sheet =>
            match w0.getSheet MASTER_SHEET_ID "History" with
            | none => .error "'History' sheet not found in Master spreadsheet."
            | some histSheet =>
                let rw := processAttachment r0 w0
                let r := rw.1
                let w := rw.2
                let headers := sheet.rows.headD []
                match applyAction r cfg sheet headers with
                | .error m => .error m
                | .ok sheet' =>
                    let w1 := w.setSheet cfg.spreadsheetId sheetName sheet'
                    let histSheet' : Sheet :=
                      ⟨histSheet.rows ++ (collectHistory r).map (histRow now)⟩
                    .ok (w1.setSheet MASTER_SHEET_ID "History" histSheet')

/-- State-passing form of `_processSingleRequest`: the same translation of
the source, but the world accompanies the outcome on error paths as well,
reflecting that in Apps Script mutations already performed — notably
attachment persistence, which precedes the action switch — survive a
subsequent failure.  `execSt_agrees` shows `_processSingleRequest` is its
projection: the two return the same error message or the same final world. -/
def execSt (r0 : Request) (w0 : World) (now : Nat) : Option String × World :=
  let sheetName := jsTrim r0.sheetName
  if sheetName = "" then (some "Request is missing 'sheetName'.", w0)
  else
    match lookupConfig sheetName with
    | none => (some ("Configuration for sheet '" ++ sheetName ++ "' not found."), w0)
    | some cfg =>
        match w0.getSheet cfg.spreadsheetId sheetName with
        | none => (some ("Sheet '" ++ sheetName ++ "' not found in spreadsheet."), w0)
        | some sheet =>
            match w0.getSheet MASTER_SHEET_ID "History" with
            | none => (some "'History' sheet not found in Master spreadsheet.", w0)
            | some histSheet =>
                let rw := processAttachment r0 w0
                let r := rw.1
                let w := rw.2
                let headers := sheet.rows.headD []
                match applyAction r cfg sheet headers with
                | .error m => (some m, w)
                | .ok sheet' =>
                    let w1 := w.setSheet cfg.spreadsheetId sheetName sheet'
                    let histSheet' : Sheet :=
                      ⟨histSheet.rows ++ (collectHistory r).map (histRow now)⟩
                    (none, w1.setSheet MASTER_SHEET_ID "History" histSheet')

/-! ## The classifier `doPost` -/

/-- HTTP response JSON. -/
structure Response where
  status : String
  message : String
deriving DecidableEq, Repr

/-- The queueing condition of `doPost`:
`request.sheetName === 'Done Task Status' && (action === 'create' || action === 'batchCreate')`. -/
def queuedCond (r : Request) : Bool :=
  r.sheetName == "Done Task Status" && (r.action == "create" || r.action == "batchCreate")

/-- `doPost` on a request that parsed successfully: either append the
serialized command to the queue sheet (creating it on first use) and
acknowledge immediately, or execute inline and propagate the outcome. -/
def doPost (r : Request) (w : World) (now : Nat) : Response × World :=
  if queuedCond r then
    (⟨"success", "Request queued successfully."⟩,
     { w with queue := some (w.queue.getD [] ++ [QEntry.good r]) })
  else
    match _processSingleRequest r w now with
    | .ok w' => (⟨"success", "Request processed successfully."⟩, w')
    | .error m => (⟨"error", "Script failed: " ++ m⟩, w)

/-! ## The drainer `processQueue` -/

/-- The per-entry validation performed inside the drain loop; entries failing
it (malformed JSON, empty cells, or commands that are not a
`create`/`batchCreate` for `'Done Task Status'`) are skipped. -/
def entryBad (e : QEntry) : Bool :=
  match e with
  | .empty => true
  | .bad _ => true
  | .good r => !(r.sheetName == "Done Task Status" &&
                 (r.action == "create" || r.action == "batchCreate"))

/-- Accumulator of one drain cycle: prepared completion-table rows, prepared
history rows, and the Drive state (attachments are persisted during the
preparation loop). -/
abbrev PrepAcc := List (List JVal) × List (List JVal) × Drive

/-- Processing of a single payload element inside a queued entry: optional
attachment persistence and URL injection (single `create` actions only),
then row construction against the normalized completion-table headers. -/
def prepElement (normHeaders : List String) (r : Request) (acc : List (List JVal) × Drive)
    (od : Option Payload) : List (List JVal) × Drive :=
  match od with
  | none => acc
  | some d =>
      match r.attachment, r.action == "create" with
      | some a, true =>
          let (drv', url) := drivePersist acc.2 a
          let d' := jsSet d "Attachment URL" (.jstr url)
          (acc.1 ++ [buildRowN normHeaders d'], drv')
      | _, _ => (acc.1 ++ [buildRowN normHeaders d], acc.2)

/-- Preparation of one queued entry: parse, validate, build completion rows
(threading Drive state) and history rows; failing entries contribute nothing. -/
def prepEntry (normHeaders : List String) (now : Nat) (acc : PrepAcc) (e : QEntry) : PrepAcc :=
  match e with
  | .empty => acc
  | .bad _ => acc
  | .good r =>
      if !(r.sheetName == "Done Task Status" &&
           (r.action == "create" || r.action == "batchCreate")) then acc
      else
        let datas : List (Option Payload) :=
          if r.action == "batchCreate" then (r.newDatas.getD []).map some else [r.newData]
        let histRecs : List HistoryRecord :=
          if r.action == "batchCreate" then r.historyRecords.getD []
          else
            match r.historyRecord with
            | some h => [h]
            | none => []
        let rowsDrv := datas.foldl (prepElement normHeaders r) (acc.1, acc.2.2)
        (rowsDrv.1, acc.2.1 ++ histRecs.map (histRow now), rowsDrv.2)

/-- The preparation loop over the whole batch. -/
def prepBatch (normHeaders : List String) (drv : Drive) (now : Nat)
    (es : List QEntry) : PrepAcc :=
  es.foldl (prepEntry normHeaders now) ([], [], drv)

/-- One drain cycle (the body run under the script lock): read up to
`BATCH_SIZE` entries from the head of the queue, prepare and bulk-write the
completion and history rows, and delete exactly the attempted prefix — unless
a fatal error (unresolvable destination or history sheet) reset the deletion
count to zero. -/
def processQueue (w : World) (now : Nat) : World :=
  match w.queue with
  | none => w
  | some q =>
      if q.length = 0 then w
      else
        let n := min q.length BATCH_SIZE
        let batch := q.take n
        match w.getSheet MASTER_SHEET_ID "Done Task Status",
              w.getSheet MASTER_SHEET_ID "History" with
        | some done, some hist =>
            let headers := done.rows.headD []
            let nh := headers.map (fun h => norm h.toJSString)
            let prep := prepBatch nh w.drive now batch
            let w1 := w.setSheet MASTER_SHEET_ID "Done Task Status" ⟨done.rows ++ prep.1⟩
            let w2 := w1.setSheet MASTER_SHEET_ID "History" ⟨hist.rows ++ prep.2.1⟩
            { w2 with drive := prep.2.2, queue := some (q.drop n) }
        | _, _ => w

/-! ## Client-side in-flight marker cleanup -/

/-- The fields of a dashboard task relevant to reconciliation. -/
structure DashTask where
  id : String
  actual : String
deriving DecidableEq, Repr

/-- The `!task.actual || task.actual.trim() === ''` test. -/
def emptyActual (s : String) : Bool := s == "" || jsTrim s == ""

/-- The in-flight cleanup effect of `TaskDashboardSystem`: on each refresh,
keep an id only when it is still present in the refreshed task list and the
(first) task bearing it has an empty completion field. -/
def cleanupInFlight (cur : List String) (tasks : List DashTask) : List String :=
  if cur.length = 0 then cur
  else
    cur.filter (fun id =>
      (tasks.any (fun t => t.id == id)) &&
      (match tasks.find? (fun t => t.id == id) with
       | some t => emptyActual t.actual
       | none => true))

/-! ## Concrete instances used by counterexamples and witnesses -/

/-- The completion-table configuration (`'Done Task Status'` in
`SHEET_CONFIG`), used over a sheet whose single data row has an empty
match-column cell. -/
def exDtsCfg : SheetConfig := { spreadsheetId := MASTER_SHEET_ID, matchColumn := "Task ID" }

def exDtsSheet : Sheet := ⟨[[.jstr "Task ID"], [.jstr ""]]⟩

def exHistSheet : Sheet := ⟨[]⟩

def exDrive0 : Drive := ⟨[], 0⟩

/-- A `'Task'` sheet with two data rows carrying the same match value. -/
def exTaskSheet : Sheet := ⟨[[.jstr "Task"], [.jstr "x"], [.jstr "x"]]⟩

def exW8 : World := ⟨[("Task", exTaskSheet), ("History", exHistSheet)], [], none, exDrive0⟩

def exDelReq : Request := { action := "delete", sheetName := "Task", matchValue := "x" }

def exW8b : World :=
  ⟨[("Task", ⟨[[.jstr "Task"], [.jstr "x"]]⟩), ("History", exHistSheet)], [], none, exDrive0⟩

def exW8c : World :=
  ⟨[("Task", ⟨[[.jstr "Task"]]⟩), ("History", exHistSheet)], [], none, exDrive0⟩

def exAtt : Attachment := { fileName := "f.txt", mimeType := "text/plain", content := "QUJD" }

def exW3TaskSheet : Sheet := ⟨[[.jstr "Task"], [.jstr "t1"]]⟩

def exW3 : World :=
  ⟨[("Task", exW3TaskSheet), ("History", exHistSheet)], [], none, exDrive0⟩

/-- A synchronous `update` command carrying an attachment. -/
def exUpdAttReq : Request :=
  { action := "update", sheetName := "Task", matchValue := "t1", attachment := some exAtt }

/-- A synchronous `update` carrying an attachment whose match value is
absent: the command fails, yet the attachment has already been persisted. -/
def exUpdAttMissReq : Request :=
  { action := "update", sheetName := "Task", matchValue := "zz", attachment := some exAtt }

/-- A synchronous `create` carrying both an attachment and a payload, to
exercise the share-URL injection into `newData` before row construction. -/
def exCreateAttReq : Request :=
  { action := "create", sheetName := "Task",
    newData := some [("task", .jstr "hello")], attachment := some exAtt }

def exW3After : World :=
  ⟨[("Task", ⟨[[.jstr "Task"], [.jstr "t1"]]⟩), ("History", exHistSheet)], [], none,
   ⟨[("Task Attachments",
      [⟨"f.txt", "text/plain", "QUJD", "https://drive.google.com/file/d/0"⟩])], 1⟩⟩

def exFlagSheet : Sheet := ⟨[[.jstr "Flag"]]⟩

def exW5 : World := ⟨[("Task", exFlagSheet), ("History", exHistSheet)], [], none, exDrive0⟩

/-- A `create` command whose payload value for the `Flag` column is the
JavaScript-falsy boolean `false`. -/
def exCreateFalsyReq : Request :=
  { action := "create", sheetName := "Task", newData := some [("flag", .jbool false)] }

def exW5After : World :=
  ⟨[("Task", ⟨[[.jstr "Flag"], [.jstr ""]]⟩), ("History", exHistSheet)], [], none, exDrive0⟩

/-- A queued-path command: `create` against `'Done Task Status'`. -/
def exQReq : Request :=
  { action := "create", sheetName := "Done Task Status",
    newData := some [("task id", .jstr "t9")],
    historyRecord := some ⟨"Checklist", "t9", "u@x", "Marked done"⟩ }

def exWQ : World :=
  ⟨[("Done Task Status", ⟨[[.jstr "Task ID"]]⟩), ("History", exHistSheet)], [],
   some [QEntry.good exQReq, QEntry.bad "oops"], exDrive0⟩

/-- `'Master Data'` content for the update witness: headers and one data row;
the `pc` column is configured read-only. -/
def exMDSheet : Sheet :=
  ⟨[[.jstr "Task ID", .jstr "pc", .jstr "Status"],
    [.jstr "t1", .jstr "P", .jstr ""]]⟩

def exMDCfg : SheetConfig :=
  { spreadsheetId := MASTER_SHEET_ID, matchColumn := "Task ID",
    matchColumnIndex := some 1, readOnlyColumns := ["pc"] }

def exW4 : World := ⟨[("Master Data", exMDSheet), ("History", exHistSheet)], [], none, exDrive0⟩

def exUpdReq : Request :=
  { action := "update", sheetName := "Master Data", matchValue := "t1",
    updatedData := [("pc", .jstr "X"), ("status", .jstr "Done")] }

/-- A delete command for the `'Done Task Status'` table whose match value is
absent, but which carries a history record. -/
def exDelMissReq : Request :=
  { action := "delete", sheetName := "Done Task Status", matchValue := "zz",
    historyRecord := some ⟨"Checklist", "zz", "u@x", "Undone"⟩ }

def exWD : World :=
  ⟨[("Done Task Status", ⟨[[.jstr "Task ID"], [.jstr "t1"]]⟩), ("History", exHistSheet)],
   [], none, exDrive0⟩

def exTasks : List DashTask := [⟨"a", ""⟩, ⟨"b", "done"⟩]

/-- The `'Task'` table configuration from `SHEET_CONFIG`. -/
def exTaskCfg : SheetConfig := { spreadsheetId := MASTER_SHEET_ID, matchColumn := "Task" }

def exDtsDataSheet : Sheet := ⟨[[.jstr "Task ID"], [.jstr "t1"]]⟩

/-! ## Helper lemmas -/

theorem master_ne_delegation : MASTER_SHEET_ID ≠ DELEGATION_SHEET_ID := by decide

theorem alGet_alSet_self {α : Type} (l : List (String × α)) (k : String) (v : α) :
    alGet (alSet l k v) k = some v := by
  induction l with
  | nil => simp [alGet, alSet, List.find?]
  | cons p t ih =>
      by_cases h : p.1 = k
      · have hb : (p.1 == k) = true := by simp [h]
        simp [alSet, alGet, List.find?, hb]
      · have hb : (p.1 == k) = false := by simp [h]
        simpa [alSet, alGet, List.find?, hb] using ih

theorem alGet_alSet_ne {α : Type} (l : List (String × α)) (k k' : String) (v : α)
    (h : k ≠ k') : alGet (alSet l k v) k' = alGet l k' := by
  have hkb : (k == k') = false := by simp [h]
  induction l with
  | nil => simp [alGet, alSet, List.find?, hkb]
  | cons p t ih =>
      by_cases hp : p.1 = k
      · have hb : (p.1 == k) = true := by simp [hp]
        have hb' : (p.1 == k') = false := by simp [hp, h]
        simp [alSet, alGet, List.find?, hb, hb', hkb, hp]
      · have hb : (p.1 == k) = false := by simp [hp]
        by_cases hp' : p.1 = k'
        · have hb' : (p.1 == k') = true := by simp [hp']
          simp [alSet, alGet, List.find?, hb, hb', hp]
        · have hb' : (p.1 == k') = false := by simp [hp']
          simpa [alSet, alGet, List.find?, hb, hb', hp] using ih

theorem setSheet_queue (w : World) (ssid n : String) (s : Sheet) :
    (w.setSheet ssid n s).queue = w.queue := by
  unfold World.setSheet; split_ifs <;> rfl

theorem setSheet_drive (w : World) (ssid n : String) (s : Sheet) :
    (w.setSheet ssid n s).drive = w.drive := by
  unfold World.setSheet; split_ifs <;> rfl

theorem getSheet_some_valid (w : World) (ssid n : String) (s : Sheet)
    (h : w.getSheet ssid n = some s) :
    ssid = MASTER_SHEET_ID ∨ ssid = DELEGATION_SHEET_ID := by
  by_cases h1 : ssid = MASTER_SHEET_ID
  · exact Or.inl h1
  · by_cases h2 : ssid = DELEGATION_SHEET_ID
    · exact Or.inr h2
    · exact absurd h (by simp [World.getSheet, h1, h2])

theorem getSheet_setSheet_self (w : World) (ssid n : String) (s : Sheet)
    (h : ssid = MASTER_SHEET_ID ∨ ssid = DELEGATION_SHEET_ID) :
    (w.setSheet ssid n s).getSheet ssid n = some s := by
  rcases h with h | h <;>
    simp [World.setSheet, World.getSheet, h, master_ne_delegation,
          Ne.symm master_ne_delegation, alGet_alSet_self]

theorem getSheet_setSheet_ne_name (w : World) (ssid n n' : String) (s : Sheet)
    (h : n ≠ n') : (w.setSheet ssid n s).getSheet ssid n' = w.getSheet ssid n' := by
  unfold World.setSheet World.getSheet
  split_ifs <;> simp [alGet_alSet_ne _ _ _ _ h]

theorem getSheet_setSheet_ne_id (w : World) (ssid ssid' n n' : String) (s : Sheet)
    (h : ssid ≠ ssid') :
    (w.setSheet ssid n s).getSheet ssid' n' = w.getSheet ssid' n' := by
  by_cases h1 : ssid = MASTER_SHEET_ID
  · have h2 : ¬(ssid' = MASTER_SHEET_ID) := fun e => h (h1.trans e.symm)
    simp [World.setSheet, World.getSheet, h1, h2]
  · by_cases h3 : ssid = DELEGATION_SHEET_ID
    · have h4 : ¬(ssid' = DELEGATION_SHEET_ID) := fun e => h (h3.trans e.symm)
      simp [World.setSheet, World.getSheet, h1, h3, h4, Ne.symm master_ne_delegation]
    · simp [World.setSheet, h1, h3]

theorem processAttachment_action (r : Request) (w : World) :
    (processAttachment r w).1.action = r.action := by
  cases h : r.attachment <;> simp [processAttachment, h]

theorem processAttachment_sheetName (r : Request) (w : World) :
    (processAttachment r w).1.sheetName = r.sheetName := by
  cases h : r.attachment <;> simp [processAttachment, h]

theorem processAttachment_matchValue (r : Request) (w : World) :
    (processAttachment r w).1.matchValue = r.matchValue := by
  cases h : r.attachment <;> simp [processAttachment, h]

theorem processAttachment_updatedData (r : Request) (w : World) :
    (processAttachment r w).1.updatedData = r.updatedData := by
  cases h : r.attachment <;> simp [processAttachment, h]

theorem processAttachment_newDatas (r : Request) (w : World) :
    (processAttachment r w).1.newDatas = r.newDatas := by
  cases h : r.attachment <;> simp [processAttachment, h]

theorem processAttachment_historyRecord (r : Request) (w : World) :
    (processAttachment r w).1.historyRecord = r.historyRecord := by
  cases h : r.attachment <;> simp [processAttachment, h]

theorem processAttachment_historyRecords (r : Request) (w : World) :
    (processAttachment r w).1.historyRecords = r.historyRecords := by
  cases h : r.attachment <;> simp [processAttachment, h]

theorem processAttachment_collectHistory (r : Request) (w : World) :
    collectHistory (processAttachment r w).1 = collectHistory r := by
  unfold collectHistory
  rw [processAttachment_historyRecord, processAttachment_historyRecords]

theorem processAttachment_queue (r : Request) (w : World) :
    (processAttachment r w).2.queue = w.queue := by
  cases h : r.attachment <;> simp [processAttachment, h]

theorem processAttachment_master (r : Request) (w : World) :
    (processAttachment r w).2.master = w.master := by
  cases h : r.attachment <;> simp [processAttachment, h]

theorem processAttachment_delegation (r : Request) (w : World) :
    (processAttachment r w).2.delegation = w.delegation := by
  cases h : r.attachment <;> simp [processAttachment, h]

theorem processAttachment_none (r : Request) (w : World) (h : r.attachment = none) :
    processAttachment r w = (r, w) := by
  simp [processAttachment, h]

theorem processAttachment_some_drive (r : Request) (w : World) (a : Attachment)
    (h : r.attachment = some a) :
    (processAttachment r w).2.drive = (drivePersist w.drive a).1 := by
  simp [processAttachment, h]

/-- The executor, conditioned on successful config, sheet and history
resolution, reduces to attachment handling, the action switch and history
logging. -/
theorem exec_eq (r0 : Request) (w0 : World) (now : Nat) (cfg : SheetConfig) (s hist : Sheet)
    (hname : ¬(jsTrim r0.sheetName = ""))
    (hcfg : lookupConfig (jsTrim r0.sheetName) = some cfg)
    (hs : w0.getSheet cfg.spreadsheetId (jsTrim r0.sheetName) = some s)
    (hh : w0.getSheet MASTER_SHEET_ID "History" = some hist) :
    _processSingleRequest r0 w0 now =
      (match applyAction (processAttachment r0 w0).1 cfg s (s.rows.headD []) with
       | .error m => .error m
       | .ok sheet' =>
          .ok (((processAttachment r0 w0).2.setSheet cfg.spreadsheetId
                  (jsTrim r0.sheetName) sheet').setSheet MASTER_SHEET_ID "History"
                ⟨hist.rows ++ (collectHistory (processAttachment r0 w0).1).map (histRow now)⟩)) := by
  unfold _processSingleRequest
  simp only [hcfg, hs, hh, if_neg hname]

theorem exec_ok_queue (r : Request) (w : World) (now : Nat) (w' : World)
    (h : _processSingleRequest r w now = .ok w') : w'.queue = w.queue := by
  unfold _processSingleRequest at h
  dsimp only at h
  split_ifs at h
  rcases hc : lookupConfig (jsTrim r.sheetName) with _ | cfg <;> simp only [hc] at h
  · exact absurd h (by simp)
  rcases hs : w.getSheet cfg.spreadsheetId (jsTrim r.sheetName) with _ | s <;>
    simp only [hs] at h
  · exact absurd h (by simp)
  rcases hh : w.getSheet MASTER_SHEET_ID "History" with _ | hist <;> simp only [hh] at h
  · exact absurd h (by simp)
  rcases ha : applyAction (processAttachment r w).1 cfg s (s.rows.headD []) with m | s' <;>
    simp only [ha] at h
  · exact absurd h (by simp)
  have h2 := Except.ok.inj h
  rw [← h2, setSheet_queue, setSheet_queue, processAttachment_queue]

theorem exec_ok_drive (r : Request) (w : World) (now : Nat) (w' : World)
    (h : _processSingleRequest r w now = .ok w') :
    w'.drive = (processAttachment r w).2.drive := by
  unfold _processSingleRequest at h
  dsimp only at h
  split_ifs at h
  rcases hc : lookupConfig (jsTrim r.sheetName) with _ | cfg <;> simp only [hc] at h
  · exact absurd h (by simp)
  rcases hs : w.getSheet cfg.spreadsheetId (jsTrim r.sheetName) with _ | s <;>
    simp only [hs] at h
  · exact absurd h (by simp)
  rcases hh : w.getSheet MASTER_SHEET_ID "History" with _ | hist <;> simp only [hh] at h
  · exact absurd h (by simp)
  rcases ha : applyAction (processAttachment r w).1 cfg s (s.rows.headD []) with m | s' <;>
    simp only [ha] at h
  · exact absurd h (by simp)
  have h2 := Except.ok.inj h
  rw [← h2, setSheet_drive, setSheet_drive]

theorem lookupConfig_name_cases (name : String) (cfg : SheetConfig)
    (h : lookupConfig name = some cfg) :
    name = "Task" ∨ name = "Master Data" ∨ name = "Done Task Status" ∨
      name = "Working Task Form" := by
  by_cases h1 : name = "Task"
  · exact Or.inl h1
  by_cases h2 : name = "Master Data"
  · exact Or.inr (Or.inl h2)
  by_cases h3 : name = "Done Task Status"
  · exact Or.inr (Or.inr (Or.inl h3))
  by_cases h4 : name = "Working Task Form"
  · exact Or.inr (Or.inr (Or.inr h4))
  exact absurd h (by
    have b1 : (("Task" : String) == name) = false := by
      cases e : ("Task" : String) == name
      · rfl
      · exact absurd (eq_of_beq e).symm h1
    have b2 : (("Master Data" : String) == name) = false := by
      cases e : ("Master Data" : String) == name
      · rfl
      · exact absurd (eq_of_beq e).symm h2
    have b3 : (("Done Task Status" : String) == name) = false := by
      cases e : ("Done Task Status" : String) == name
      · rfl
      · exact absurd (eq_of_beq e).symm h3
    have b4 : (("Working Task Form" : String) == name) = false := by
      cases e : ("Working Task Form" : String) == name
      · rfl
      · exact absurd (eq_of_beq e).symm h4
    simp [lookupConfig, SHEET_CONFIG, List.find?, b1, b2, b3, b4])

theorem lookupConfig_name_ne_history (name : String) (cfg : SheetConfig)
    (h : lookupConfig name = some cfg) : name ≠ "History" := by
  rcases lookupConfig_name_cases name cfg h with h1 | h1 | h1 | h1 <;>
    (rw [h1]; decide)

theorem applyAction_create (r : Request) (cfg : SheetConfig) (s : Sheet)
    (headers : List JVal) (ha : r.action = "create") :
    applyAction r cfg s headers = .ok ⟨s.rows ++ [buildRow headers (r.newData.getD [])]⟩ := by
  simp [applyAction, ha]

theorem applyAction_batchCreate (r : Request) (cfg : SheetConfig) (s : Sheet)
    (headers : List JVal) (ds : List Payload)
    (ha : r.action = "batchCreate") (hd : r.newDatas = some ds) :
    applyAction r cfg s headers = .ok ⟨s.rows ++ ds.map (buildRow headers)⟩ := by
  simp [applyAction, ha, hd]

theorem applyAction_update_found (r : Request) (cfg : SheetConfig) (s : Sheet)
    (headers : List JVal) (i : Nat) (ha : r.action = "update")
    (hf : findRow s cfg r.matchValue = .ok ((i : Int) + 1)) :
    applyAction r cfg s headers =
      .ok ⟨s.rows.set i (updateCells headers cfg.readOnlyColumns r.updatedData
            (s.rows.getD i []))⟩ := by
  have h1 : ¬((i : Int) + 1 = -1) := by omega
  have h2 : ((i : Int) + 1).toNat - 1 = i := by omega
  simp [applyAction, ha, hf, h1, h2]

theorem applyAction_update_notfound (r : Request) (cfg : SheetConfig) (s : Sheet)
    (headers : List JVal) (ha : r.action = "update")
    (hf : findRow s cfg r.matchValue = .ok (-1)) :
    applyAction r cfg s headers =
      .error ("Row with " ++ cfg.matchColumn ++ " = '" ++ r.matchValue ++
              "' not found to update in '" ++ jsTrim r.sheetName ++ "'.") := by
  simp [applyAction, ha, hf]

theorem applyAction_delete_notfound (r : Request) (cfg : SheetConfig) (s : Sheet)
    (headers : List JVal) (ha : r.action = "delete")
    (hf : findRow s cfg r.matchValue = .ok (-1)) :
    applyAction r cfg s headers = .ok s := by
  simp [applyAction, ha, hf]

theorem applyAction_delete_found (r : Request) (cfg : SheetConfig) (s : Sheet)
    (headers : List JVal) (i : Nat) (ha : r.action = "delete")
    (hf : findRow s cfg r.matchValue = .ok ((i : Int) + 1)) :
    applyAction r cfg s headers = .ok ⟨s.rows.eraseIdx i⟩ := by
  have h1 : ¬((i : Int) + 1 = -1) := by omega
  have h2 : ((i : Int) + 1).toNat - 1 = i := by omega
  simp [applyAction, ha, hf, h1, h2]

theorem scanFrom_some_iff (rows : List (List JVal)) (idx : Nat) (nmv : String)
    (k i : Nat) :
    scanFrom rows idx nmv k = some i ↔
      (1 ≤ i ∧ i ≤ k ∧ rowMatches rows idx nmv i = true ∧
       ∀ j, i < j → j ≤ k → rowMatches rows idx nmv j = false) := by
  induction k with
  | zero =>
      constructor
      · intro h; exact absurd h (by simp [scanFrom])
      · rintro ⟨h1, h2, -, -⟩; omega
  | succ k ih =>
      constructor
      · intro h
        rw [scanFrom] at h
        by_cases hm : rowMatches rows idx nmv (k + 1) = true
        · rw [if_pos hm] at h
          have hik : i = k + 1 := (Option.some.inj h).symm
          subst hik
          exact ⟨by omega, le_refl _, hm, fun j hj hj' => absurd hj (by omega)⟩
        · rw [if_neg hm] at h
          rcases ih.mp h with ⟨h1, h2, h3, h4⟩
          have hm' : rowMatches rows idx nmv (k + 1) = false := by
            revert hm; cases rowMatches rows idx nmv (k + 1) <;> simp
          refine ⟨h1, by omega, h3, fun j hj hj' => ?_⟩
          by_cases hjk : j ≤ k
          · exact h4 j hj hjk
          · have hj1 : j = k + 1 := by omega
            rw [hj1]; exact hm'
      · rintro ⟨h1, h2, h3, h4⟩
        rw [scanFrom]
        by_cases hi : i = k + 1
        · subst hi; rw [if_pos h3]
        · have hik : i ≤ k := by omega
          have hm' : rowMatches rows idx nmv (k + 1) = false :=
            h4 (k + 1) (by omega) (le_refl _)
          rw [if_neg (by simp [hm'])]
          exact ih.mpr ⟨h1, hik, h3, fun j hj hj' => h4 j hj (by omega)⟩

theorem scanFrom_none_iff (rows : List (List JVal)) (idx : Nat) (nmv : String)
    (k : Nat) :
    scanFrom rows idx nmv k = none ↔
      ∀ j, 1 ≤ j → j ≤ k → rowMatches rows idx nmv j = false := by
  induction k with
  | zero =>
      simp only [scanFrom]
      constructor
      · intro _ j h1 h2; exact absurd h2 (by omega)
      · intro _; trivial
  | succ k ih =>
      rw [scanFrom]
      by_cases hm : rowMatches rows idx nmv (k + 1) = true
      · rw [if_pos hm]
        constructor
        · intro h; exact absurd h (by simp)
        · intro hall
          exact absurd hm (by simp [hall (k + 1) (by omega) (le_refl _)])
      · have hm' : rowMatches rows idx nmv (k + 1) = false := by
          revert hm; cases rowMatches rows idx nmv (k + 1) <;> simp
        rw [if_neg hm]
        rw [ih]
        constructor
        · intro hall j h1 h2
          by_cases hjk : j ≤ k
          · exact hall j h1 hjk
          · have hj1 : j = k + 1 := by omega
            rw [hj1]; exact hm'
        · intro hall j h1 h2
          exact hall j h1 (by omega)

theorem find?_eq_of_nodup :
    ∀ (tasks : List DashTask) (t : DashTask),
      (tasks.map (fun x => x.id)).Nodup → t ∈ tasks →
      tasks.find? (fun x => x.id == t.id) = some t := by
  intro tasks
  induction tasks with
  | nil => intro t _ hmem; cases hmem
  | cons a l ih =>
      intro t hnd hmem
      rw [List.map_cons, List.nodup_cons] at hnd
      rcases List.mem_cons.mp hmem with rfl | hmem'
      · simp [List.find?]
      · have hne : ¬(a.id = t.id) := by
          intro e
          exact hnd.1 (by rw [e]; exact List.mem_map_of_mem (fun x => x.id) hmem')
        have hb : (a.id == t.id) = false := by simp [hne]
        rw [List.find?]
        rw [hb]
        exact ih t hnd.2 hmem'

theorem prepEntry_bad (nh : List String) (now : Nat) (acc : PrepAcc) (e : QEntry)
    (he : entryBad e = true) : prepEntry nh now acc e = acc := by
  cases e with
  | empty => rfl
  | bad s => rfl
  | good r =>
      have hc : (r.sheetName == "Done Task Status" &&
                 (r.action == "create" || r.action == "batchCreate")) = false := by
        revert he
        simp only [entryBad]
        cases r.sheetName == "Done Task Status" &&
              (r.action == "create" || r.action == "batchCreate") <;> simp
      simp [prepEntry, hc]

theorem prepBatch_skip_bad (nh : List String) (drv : Drive) (now : Nat)
    (pre post : List QEntry) (e : QEntry) (he : entryBad e = true) :
    prepBatch nh drv now (pre ++ e :: post) = prepBatch nh drv now (pre ++ post) := by
  unfold prepBatch
  rw [List.foldl_append, List.foldl_append, List.foldl_cons, prepEntry_bad _ _ _ _ he]

theorem processQueue_queue_commit (w : World) (q : List QEntry) (now : Nat)
    (done hist : Sheet) (hq : w.queue = some q)
    (hd : w.getSheet MASTER_SHEET_ID "Done Task Status" = some done)
    (hh : w.getSheet MASTER_SHEET_ID "History" = some hist) :
    (processQueue w now).queue = some (q.drop (min q.length BATCH_SIZE)) := by
  unfold processQueue
  by_cases hlen : q.length = 0
  · have hq0 : q = [] := List.length_eq_zero.mp hlen
    subst hq0
    simp [hq]
  · simp only [hq, hd, hh, if_neg hlen]

theorem processQueue_fatal (w : World) (q : List QEntry) (now : Nat)
    (hq : w.queue = some q) (hne : ¬q.length = 0)
    (h : w.getSheet MASTER_SHEET_ID "Done Task Status" = none ∨
         w.getSheet MASTER_SHEET_ID "History" = none) :
    processQueue w now = w := by
  unfold processQueue
  rcases h0 : w.getSheet MASTER_SHEET_ID "Done Task Status" with _ | d <;>
    rcases h1 : w.getSheet MASTER_SHEET_ID "History" with _ | ht <;>
      simp only [hq, h0, h1, if_neg hne] <;> simp_all

theorem getSheet_set_then_history (w : World) (ssid n : String) (s s' : Sheet)
    (hv : ssid = MASTER_SHEET_ID ∨ ssid = DELEGATION_SHEET_ID) (hn : ¬(n = "History")) :
    ((w.setSheet ssid n s).setSheet MASTER_SHEET_ID "History" s').getSheet ssid n = some s := by
  rcases hv with hv | hv
  · subst hv
    rw [getSheet_setSheet_ne_name _ _ "History" n _ (fun e => hn e.symm)]
    exact getSheet_setSheet_self _ _ _ _ (Or.inl rfl)
  · subst hv
    rw [getSheet_setSheet_ne_id _ MASTER_SHEET_ID DELEGATION_SHEET_ID "History" n _
          master_ne_delegation]
    exact getSheet_setSheet_self _ _ _ _ (Or.inr rfl)

theorem buildRow_get? :
    ∀ (headers : List JVal) (d : Payload) (j : Nat), j < headers.length →
      (buildRow headers d).get? j =
        some (orEmpty (lookupNorm d (norm (headers.getD j (JVal.jstr "")).toJSString))) := by
  intro headers
  induction headers with
  | nil => intro d j hj; exact absurd hj (by simp)
  | cons h t ih =>
      intro d j hj
      cases j with
      | zero => rfl
      | succ j' =>
          have hj' : j' < t.length := by simpa using hj
          simpa [buildRow, buildRowN] using ih d j' hj'

theorem buildRow_length (headers : List JVal) (d : Payload) :
    (buildRow headers d).length = headers.length := by
  simp [buildRow, buildRowN]

theorem range_map_get? {α : Type} (f : Nat → α) (len j : Nat) (hj : j < len) :
    ((List.range len).map f).get? j = some (f j) := by
  rw [List.get?_map]
  rw [List.get?_eq_getElem?, List.getElem?_range hj]
  rfl

theorem updateCells_get_lt (headers : List JVal) (ro : List String) (upd : Payload)
    (row : List JVal) (j : Nat) (hj : j < headers.length) :
    (updateCells headers ro upd row).getD j (JVal.jstr "") =
      (if (ro.map norm).contains (norm (headers.getD j (JVal.jstr "")).toJSString)
       then row.getD j (JVal.jstr "")
       else
         match lookupNorm upd (norm (headers.getD j (JVal.jstr "")).toJSString) with
         | some v => v
         | none => row.getD j (JVal.jstr "")) := by
  unfold updateCells
  rw [List.getD_eq_getElem?_getD, List.getElem?_append_left (by simpa using hj)]
  rw [← List.get?_eq_getElem?]
  rw [range_map_get? _ _ _ hj]
  rfl

theorem updateCells_get_ge (headers : List JVal) (ro : List String) (upd : Payload)
    (row : List JVal) (j : Nat) (hj : headers.length ≤ j) :
    (updateCells headers ro upd row).getD j (JVal.jstr "") =
      row.getD j (JVal.jstr "") := by
  unfold updateCells
  rw [List.getD_eq_getElem?_getD, List.getElem?_append_right (by simpa using hj)]
  rw [List.length_map, List.length_range]
  rw [List.getElem?_drop]
  rw [List.getD_eq_getElem?_getD]
  congr 2
  omega

theorem foldl_prepElement_drive (nh : List String) (r : Request)
    (hc : (r.action == "create") = false) :
    ∀ (ds : List (Option Payload)) (acc : List (List JVal) × Drive),
      (ds.foldl (prepElement nh r) acc).2 = acc.2 := by
  intro ds
  induction ds with
  | nil => intro acc; rfl
  | cons od t ih =>
      intro acc
      rw [List.foldl_cons, ih]
      cases od with
      | none => rfl
      | some d => cases hat : r.attachment <;> simp [prepElement, hat, hc]

/-- `_processSingleRequest` is the projection of the state-passing `execSt`:
they branch identically and return the same error message or final world. -/
theorem execSt_agrees (r : Request) (w : World) (now : Nat) :
    _processSingleRequest r w now =
      (match (execSt r w now).1 with
       | some m => Except.error m
       | none => Except.ok (execSt r w now).2) := by
  unfold _processSingleRequest execSt
  dsimp only
  by_cases h1 : jsTrim r.sheetName = ""
  · simp only [if_pos h1]
  · simp only [if_neg h1]
    rcases hc : lookupConfig (jsTrim r.sheetName) with _ | cfg <;> simp only [hc]
    rcases hs : w.getSheet cfg.spreadsheetId (jsTrim r.sheetName) with _ | s <;>
      simp only [hs]
    rcases hh : w.getSheet MASTER_SHEET_ID "History" with _ | hist <;> simp only [hh]
    rcases hap : applyAction (processAttachment r w).1 cfg s (s.rows.headD []) with m | s' <;>
      simp only [hap]

/-! ## Claim theorems -/

/-- C1: an incoming command is appended (serialized) to the queue with an
immediate success acknowledgement exactly when its target sheet is
`'Done Task Status'` and its action is `create` or `batchCreate`; every other
target/action combination is executed inline by `_processSingleRequest`, with
its success or its error message propagated in the response and the queue
left untouched. -/
theorem c1_classifier_routing (r : Request) (w : World) (now : Nat) :
    (queuedCond r = true ↔
       ((doPost r w now).1 = ⟨"success", "Request queued successfully."⟩ ∧
        (doPost r w now).2 =
          { w with queue := some (w.queue.getD [] ++ [QEntry.good r]) })) ∧
    (queuedCond r = false →
       ((doPost r w now).2.queue = w.queue ∧
        (∀ w', _processSingleRequest r w now = .ok w' →
           doPost r w now = (⟨"success", "Request processed successfully."⟩, w')) ∧
        (∀ m, _processSingleRequest r w now = .error m →
           doPost r w now = (⟨"error", "Script failed: " ++ m⟩, w)))) := by
  by_cases hc : queuedCond r = true
  · refine ⟨⟨fun _ => by simp [doPost, hc], fun _ => hc⟩, fun hf => absurd hc (by simp [hf])⟩
  · have hcf : queuedCond r = false := by
      revert hc; cases queuedCond r <;> simp
    constructor
    · constructor
      · intro h; exact absurd h hc
      · rintro ⟨h1, -⟩
        exfalso
        rcases he : _processSingleRequest r w now with m | w' <;>
          simp [doPost, hcf, he] at h1
    · intro _
      refine ⟨?_, fun w' he => by simp [doPost, hcf, he], fun m he => by simp [doPost, hcf, he]⟩
      rcases he : _processSingleRequest r w now with m | w'
      · simp [doPost, hcf, he]
      · have hqw := exec_ok_queue r w now w' he
        simp [doPost, hcf, he, hqw]

/-- C2: a drain cycle over a queue `q` deletes exactly the attempted prefix
of length `min q.length BATCH_SIZE` from the head — leaving the remaining
entries in order — unless a fatal error (the completion or history sheet
cannot be resolved) occurs, in which case the deletion count is reset to zero
and the queue is left entirely unchanged. -/
theorem c2_commit_rule (w : World) (q : List QEntry) (now : Nat)
    (hq : w.queue = some q) :
    (processQueue w now).queue =
      some (if ¬(q = []) ∧ (w.getSheet MASTER_SHEET_ID "Done Task Status" = none ∨
                            w.getSheet MASTER_SHEET_ID "History" = none)
            then q
            else q.drop (min q.length BATCH_SIZE)) := by
  by_cases hfat : ¬(q = []) ∧ (w.getSheet MASTER_SHEET_ID "Done Task Status" = none ∨
                               w.getSheet MASTER_SHEET_ID "History" = none)
  · rw [if_pos hfat]
    rw [processQueue_fatal w q now hq
          (fun h0 => hfat.1 (List.length_eq_zero.mp h0)) hfat.2]
    exact hq
  · rw [if_neg hfat]
    by_cases hq0 : q = []
    · subst hq0
      unfold processQueue
      simp [hq]
    · rcases h0 : w.getSheet MASTER_SHEET_ID "Done Task Status" with _ | d
      · exact absurd ⟨hq0, Or.inl h0⟩ hfat
      rcases h1 : w.getSheet MASTER_SHEET_ID "History" with _ | ht
      · exact absurd ⟨hq0, Or.inr h1⟩ hfat
      exact processQueue_queue_commit w q now d ht hq h0 h1

/-- C7: a batch entry that fails to parse (malformed string or empty cell) or
whose parsed command is not a `create`/`batchCreate` for
`'Done Task Status'` contributes nothing to the prepared completion rows,
history rows or Drive effects — the rest of the batch is prepared exactly as
if the entry were absent — and such an entry never aborts the cycle: the
cycle still commits and deletes the attempted prefix, which counts the
skipped entry. -/
theorem c7_entry_isolation (nh : List String) (drv : Drive) (now : Nat)
    (pre post : List QEntry) (e : QEntry) (he : entryBad e = true) :
    prepBatch nh drv now (pre ++ e :: post) = prepBatch nh drv now (pre ++ post) ∧
    (∀ (w : World) (q : List QEntry) (done hist : Sheet),
       w.queue = some q →
       w.getSheet MASTER_SHEET_ID "Done Task Status" = some done →
       w.getSheet MASTER_SHEET_ID "History" = some hist →
       (processQueue w now).queue = some (q.drop (min q.length BATCH_SIZE))) := by
  constructor
  · exact prepBatch_skip_bad nh drv now pre post e he
  · intro w q done hist hq hd hh
    exact processQueue_queue_commit w q now done hist hq hd hh

/-- C9: on a data refresh, the cleaned-up in-flight set keeps exactly those
ids of the previous set whose task still appears in the refreshed task list
with an empty completion (`actual`) field; ids whose task is absent or whose
completion is populated are removed, and no id is ever added (the result is
always a subset of the previous set).  Stated for refreshed lists whose task
ids are distinct, as each marker refers to one task. -/
theorem c9_inflight_reconciliation (cur : List String) (tasks : List DashTask)
    (hnd : (tasks.map (fun t => t.id)).Nodup) :
    (∀ x, x ∈ cleanupInFlight cur tasks ↔
       (x ∈ cur ∧ ∃ t, t ∈ tasks ∧ t.id = x ∧ emptyActual t.actual = true)) ∧
    (∀ x, x ∈ cleanupInFlight cur tasks → x ∈ cur) := by
  have hmain : ∀ x, x ∈ cleanupInFlight cur tasks ↔
      (x ∈ cur ∧ ∃ t, t ∈ tasks ∧ t.id = x ∧ emptyActual t.actual = true) := by
    intro x
    by_cases h0 : cur.length = 0
    · have hc0 : cur = [] := List.length_eq_zero.mp h0
      subst hc0
      simp [cleanupInFlight]
    · rw [cleanupInFlight, if_neg h0, List.mem_filter]
      constructor
      · rintro ⟨hmem, hpred⟩
        obtain ⟨hany, hmatch⟩ := (Bool.and_eq_true _ _).mp hpred
        obtain ⟨t, htmem, hteq⟩ := List.any_eq_true.mp hany
        have hteq' : t.id = x := by simpa using hteq
        have hfind : tasks.find? (fun t' => t'.id == x) = some t := by
          rw [← hteq']
          exact find?_eq_of_nodup tasks t hnd htmem
        rw [hfind] at hmatch
        exact ⟨hmem, t, htmem, hteq', hmatch⟩
      · rintro ⟨hmem, t, htmem, hteq, hempty⟩
        refine ⟨hmem, (Bool.and_eq_true _ _).mpr ⟨?_, ?_⟩⟩
        · exact List.any_eq_true.mpr ⟨t, htmem, by simp [hteq]⟩
        · have hfind : tasks.find? (fun t' => t'.id == x) = some t := by
            rw [← hteq]
            exact find?_eq_of_nodup tasks t hnd htmem
          rw [hfind]
          exact hempty
  refine ⟨hmain, fun x hx => ((hmain x).mp hx).1⟩

/-- C6 counterexample: with an empty (hence empty-after-normalization) match
value, the data row at index 1 has a match-column cell whose normalized
content equals the normalized match value, yet `findRow` reports not found
(`-1`) — the scan skips rows whose normalized cell is empty, so the
bottom-most-equal-cell description fails for empty match values. -/
theorem c6_counterexample :
    findRow exDtsSheet exDtsCfg "" = .ok (-1) ∧
    exDtsSheet.rows.length = 2 ∧
    norm ((exDtsSheet.rows.getD 1 []).getD 0 (.jstr "x")).toJSString = norm "" := by
  exact ⟨rfl, rfl, rfl⟩

/-- C6 (amended): given a resolvable match column of index `idx`, `findRow`
returns `i + 1` exactly for the bottom-most (greatest-index) non-header row
`i` satisfying `rowMatches` — whose match-column cell, trimmed and lowercased,
is **non-empty** and equal to the trimmed and lowercased match value — and
returns `-1` exactly when no row satisfies it.  The non-emptiness condition
is the amendment: a row whose normalized cell is empty never matches, even
when the normalized match value is itself empty. -/
theorem c6_bottom_most_lookup (s : Sheet) (cfg : SheetConfig) (mv : String) (idx : Nat)
    (hidx : resolveMatchIndex s cfg = .ok idx) :
    (∀ i : Nat, findRow s cfg mv = .ok ((i : Int) + 1) ↔
       (1 ≤ i ∧ i < s.rows.length ∧ rowMatches s.rows idx (norm mv) i = true ∧
        ∀ j, i < j → j < s.rows.length → rowMatches s.rows idx (norm mv) j = false)) ∧
    (findRow s cfg mv = .ok (-1) ↔
       ∀ j, 1 ≤ j → j < s.rows.length → rowMatches s.rows idx (norm mv) j = false) := by
  constructor
  · intro i
    constructor
    · intro h
      have hcore : scanFrom s.rows idx (norm mv) (s.rows.length - 1) = some i := by
        rcases hc : findRowCore s.rows idx (norm mv) with _ | i0
        · simp only [findRow, hidx, hc] at h
          exact absurd (Except.ok.inj h) (by omega)
        · simp only [findRow, hidx, hc] at h
          have hi0 : i0 = i := by
            have := Except.ok.inj h
            omega
          rw [← hi0]
          rw [← findRowCore]
          exact hc
      rcases (scanFrom_some_iff s.rows idx (norm mv) (s.rows.length - 1) i).mp hcore
        with ⟨h1, h2, h3, h4⟩
      exact ⟨h1, by omega, h3, fun j hj hj' => h4 j hj (by omega)⟩
    · rintro ⟨h1, h2, h3, h4⟩
      have hcore : findRowCore s.rows idx (norm mv) = some i := by
        rw [findRowCore]
        exact (scanFrom_some_iff s.rows idx (norm mv) (s.rows.length - 1) i).mpr
          ⟨h1, by omega, h3, fun j hj hj' => h4 j hj (by omega)⟩
      simp only [findRow, hidx, hcore]
  · constructor
    · intro h
      have hcore : findRowCore s.rows idx (norm mv) = none := by
        rcases hc : findRowCore s.rows idx (norm mv) with _ | i0
        · rfl
        · simp only [findRow, hidx, hc] at h
          exact absurd (Except.ok.inj h) (by omega)
      have hall := (scanFrom_none_iff s.rows idx (norm mv) (s.rows.length - 1)).mp
        (by rw [← findRowCore]; exact hcore)
      intro j hj1 hj2
      exact hall j hj1 (by omega)
    · intro hall
      have hcore : findRowCore s.rows idx (norm mv) = none := by
        rw [findRowCore]
        exact (scanFrom_none_iff s.rows idx (norm mv) (s.rows.length - 1)).mpr
          (fun j hj1 hj2 => hall j hj1 (by omega))
      simp only [findRow, hidx, hcore]

/-- C4: for a synchronous update on a resolvable table, (a) when the
match-column lookup finds no row the update fails with an error; (b) when it
finds row `i`, the executor succeeds and the target sheet is the old sheet
with exactly row `i` replaced by `updateCells`; (c) within the header width,
a cell is kept when its normalized column name is read-only (even if present
in the payload) or absent from the normalized payload, and overwritten with
the payload value otherwise; (d) cells beyond the header width are kept;
(e) rows other than the set row are untouched. -/
theorem c4_update_partial_semantics (r : Request) (w : World) (now : Nat)
    (cfg : SheetConfig) (s hist : Sheet)
    (ha : r.action = "update")
    (hname : ¬(jsTrim r.sheetName = ""))
    (hcfg : lookupConfig (jsTrim r.sheetName) = some cfg)
    (hs : w.getSheet cfg.spreadsheetId (jsTrim r.sheetName) = some s)
    (hh : w.getSheet MASTER_SHEET_ID "History" = some hist) :
    (findRow s cfg r.matchValue = .ok (-1) →
       ∃ m, _processSingleRequest r w now = .error m) ∧
    (∀ i : Nat, findRow s cfg r.matchValue = .ok ((i : Int) + 1) →
       ∃ w', _processSingleRequest r w now = .ok w' ∧
         w'.getSheet cfg.spreadsheetId (jsTrim r.sheetName) =
           some ⟨s.rows.set i (updateCells (s.rows.headD []) cfg.readOnlyColumns
                  r.updatedData (s.rows.getD i []))⟩) ∧
    (∀ (headers : List JVal) (ro : List String) (upd : Payload) (row : List JVal)
       (j : Nat), j < headers.length →
       (updateCells headers ro upd row).getD j (JVal.jstr "") =
         (if (ro.map norm).contains (norm (headers.getD j (JVal.jstr "")).toJSString)
          then row.getD j (JVal.jstr "")
          else
            match lookupNorm upd (norm (headers.getD j (JVal.jstr "")).toJSString) with
            | some v => v
            | none => row.getD j (JVal.jstr ""))) ∧
    (∀ (headers : List JVal) (ro : List String) (upd : Payload) (row : List JVal)
       (j : Nat), headers.length ≤ j →
       (updateCells headers ro upd row).getD j (JVal.jstr "") =
         row.getD j (JVal.jstr "")) ∧
    (∀ (rows : List (List JVal)) (i : Nat) (row : List JVal) (i' : Nat), ¬(i' = i) →
       (rows.set i row).get? i' = rows.get? i') := by
  have hr := exec_eq r w now cfg s hist hname hcfg hs hh
  have ha' : (processAttachment r w).1.action = "update" := by
    rw [processAttachment_action]; exact ha
  refine ⟨?_, ?_, ?_, ?_, ?_⟩
  · intro hf
    have hf' : findRow s cfg (processAttachment r w).1.matchValue = .ok (-1) := by
      rw [processAttachment_matchValue]; exact hf
    have happ := applyAction_update_notfound (processAttachment r w).1 cfg s
      (s.rows.headD []) ha' hf'
    exact ⟨_, by rw [hr]; simp only [happ]; rfl⟩
  · intro i hf
    have hf' : findRow s cfg (processAttachment r w).1.matchValue = .ok ((i : Int) + 1) := by
      rw [processAttachment_matchValue]; exact hf
    have happ := applyAction_update_found (processAttachment r w).1 cfg s
      (s.rows.headD []) i ha' hf'
    rw [processAttachment_updatedData] at happ
    refine ⟨_, by rw [hr]; simp only [happ]; rfl, ?_⟩
    exact getSheet_set_then_history _ _ _ _ _
      (getSheet_some_valid w cfg.spreadsheetId _ s hs)
      (lookupConfig_name_ne_history _ cfg hcfg)
  · intro headers ro upd row j hj
    exact updateCells_get_lt headers ro upd row j hj
  · intro headers ro upd row j hj
    exact updateCells_get_ge headers ro upd row j hj
  · intro rows i row i' hne
    exact List.get?_set_ne _ _ (fun e => hne e.symm)

/-- C10: a synchronous delete whose match value is absent leaves the target
table unchanged, yet still appends to the History sheet one row per supplied
history record, each row carrying the timestamp of the moment of logging —
the no-op delete is not side-effect-free with respect to the audit ledger. -/
theorem c10_noop_delete_still_logs (r : Request) (w : World) (now : Nat)
    (cfg : SheetConfig) (s hist : Sheet)
    (ha : r.action = "delete")
    (hname : ¬(jsTrim r.sheetName = ""))
    (hcfg : lookupConfig (jsTrim r.sheetName) = some cfg)
    (hs : w.getSheet cfg.spreadsheetId (jsTrim r.sheetName) = some s)
    (hh : w.getSheet MASTER_SHEET_ID "History" = some hist)
    (hf : findRow s cfg r.matchValue = .ok (-1)) :
    ∃ w', _processSingleRequest r w now = .ok w' ∧
      w'.getSheet cfg.spreadsheetId (jsTrim r.sheetName) = some s ∧
      w'.getSheet MASTER_SHEET_ID "History" =
        some ⟨hist.rows ++ (collectHistory r).map (histRow now)⟩ := by
  have hr := exec_eq r w now cfg s hist hname hcfg hs hh
  have ha' : (processAttachment r w).1.action = "delete" := by
    rw [processAttachment_action]; exact ha
  have hf' : findRow s cfg (processAttachment r w).1.matchValue = .ok (-1) := by
    rw [processAttachment_matchValue]; exact hf
  have happ := applyAction_delete_notfound (processAttachment r w).1 cfg s
    (s.rows.headD []) ha' hf'
  refine ⟨_, by rw [hr]; simp only [happ]; rfl, ?_, ?_⟩
  · exact getSheet_set_then_history _ _ _ _ _
      (getSheet_some_valid w cfg.spreadsheetId _ s hs)
      (lookupConfig_name_ne_history _ cfg hcfg)
  · rw [processAttachment_collectHistory]
    exact getSheet_setSheet_self _ MASTER_SHEET_ID "History" _ (Or.inl rfl)

/-- C8 counterexample: on a table holding two rows with the same match value,
the first synchronous delete succeeds and removes the bottom-most matching
row, and *repeating the same delete* succeeds again but removes the remaining
matching row — it is not a no-op, contradicting the claim that repeating the
same delete after a successful one is again a no-op. -/
theorem c8_counterexample :
    _processSingleRequest exDelReq exW8 0 = .ok exW8b ∧
    _processSingleRequest exDelReq exW8b 0 = .ok exW8c ∧
    (exW8b.master == exW8c.master) = false := by
  exact ⟨rfl, rfl, rfl⟩

/-- C8 (amended): a synchronous delete whose match value matches no row
completes successfully and leaves the target table unchanged (so deleting a
nonexistent match value never errors and never mutates the table, and a
repeat delete is a no-op success once no matching row remains); a matching
delete succeeds and removes exactly the bottom-most matched row. -/
theorem c8_idempotent_delete (r : Request) (w : World) (now : Nat)
    (cfg : SheetConfig) (s hist : Sheet)
    (ha : r.action = "delete")
    (hname : ¬(jsTrim r.sheetName = ""))
    (hcfg : lookupConfig (jsTrim r.sheetName) = some cfg)
    (hs : w.getSheet cfg.spreadsheetId (jsTrim r.sheetName) = some s)
    (hh : w.getSheet MASTER_SHEET_ID "History" = some hist) :
    (findRow s cfg r.matchValue = .ok (-1) →
       ∃ w', _processSingleRequest r w now = .ok w' ∧
         w'.getSheet cfg.spreadsheetId (jsTrim r.sheetName) = some s) ∧
    (∀ i : Nat, findRow s cfg r.matchValue = .ok ((i : Int) + 1) →
       ∃ w', _processSingleRequest r w now = .ok w' ∧
         w'.getSheet cfg.spreadsheetId (jsTrim r.sheetName) =
           some ⟨s.rows.eraseIdx i⟩) := by
  have hr := exec_eq r w now cfg s hist hname hcfg hs hh
  have ha' : (processAttachment r w).1.action = "delete" := by
    rw [processAttachment_action]; exact ha
  constructor
  · intro hf
    have hf' : findRow s cfg (processAttachment r w).1.matchValue = .ok (-1) := by
      rw [processAttachment_matchValue]; exact hf
    have happ := applyAction_delete_notfound (processAttachment r w).1 cfg s
      (s.rows.headD []) ha' hf'
    refine ⟨_, by rw [hr]; simp only [happ]; rfl, ?_⟩
    exact getSheet_set_then_history _ _ _ _ _
      (getSheet_some_valid w cfg.spreadsheetId _ s hs)
      (lookupConfig_name_ne_history _ cfg hcfg)
  · intro i hf
    have hf' : findRow s cfg (processAttachment r w).1.matchValue = .ok ((i : Int) + 1) := by
      rw [processAttachment_matchValue]; exact hf
    have happ := applyAction_delete_found (processAttachment r w).1 cfg s
      (s.rows.headD []) i ha' hf'
    refine ⟨_, by rw [hr]; simp only [happ]; rfl, ?_⟩
    exact getSheet_set_then_history _ _ _ _ _
      (getSheet_some_valid w cfg.spreadsheetId _ s hs)
      (lookupConfig_name_ne_history _ cfg hcfg)

/-- C5 counterexample: a `create` whose payload carries the JavaScript-falsy
value `false` for the `Flag` column appends a row whose `Flag` cell is the
empty string, not the payload value — the `|| ""` guard erases falsy present
values, contradicting "present fields keep their payload value". -/
theorem c5_counterexample :
    _processSingleRequest exCreateFalsyReq exW5 0 = .ok exW5After ∧
    lookupNorm [("flag", .jbool false)] "flag" = some (.jbool false) ∧
    alGet exW5After.master "Task" = some ⟨[[.jstr "Flag"], [.jstr ""]]⟩ ∧
    ¬(JVal.jstr "" = .jbool false) := by
  refine ⟨rfl, rfl, rfl, by decide⟩

/-- C5 (amended): for `create` (without attachment) the appended row has one
cell per header column, built by `buildRow`; per cell, a payload value whose
normalized key matches the normalized header is kept when it is
JavaScript-truthy, while a missing key or a falsy present value (empty
string, `0`, `false`, `null`) yields the empty string.  `batchCreate` applies
the same construction to every payload element in order, in one bulk append. -/
theorem c5_create_row_construction (r : Request) (w : World) (now : Nat)
    (cfg : SheetConfig) (s hist : Sheet)
    (hname : ¬(jsTrim r.sheetName = ""))
    (hcfg : lookupConfig (jsTrim r.sheetName) = some cfg)
    (hs : w.getSheet cfg.spreadsheetId (jsTrim r.sheetName) = some s)
    (hh : w.getSheet MASTER_SHEET_ID "History" = some hist)
    (hatt : r.attachment = none) :
    (r.action = "create" →
       ∃ w', _processSingleRequest r w now = .ok w' ∧
         w'.getSheet cfg.spreadsheetId (jsTrim r.sheetName) =
           some ⟨s.rows ++ [buildRow (s.rows.headD []) (r.newData.getD [])]⟩) ∧
    (∀ ds, r.action = "batchCreate" → r.newDatas = some ds →
       ∃ w', _processSingleRequest r w now = .ok w' ∧
         w'.getSheet cfg.spreadsheetId (jsTrim r.sheetName) =
           some ⟨s.rows ++ ds.map (buildRow (s.rows.headD []))⟩) ∧
    (∀ (headers : List JVal) (d : Payload) (j : Nat), j < headers.length →
       (buildRow headers d).get? j =
         some (match lookupNorm d (norm (headers.getD j (JVal.jstr "")).toJSString) with
               | some v => if v.truthy = true then v else JVal.jstr ""
               | none => JVal.jstr "")) ∧
    (∀ (headers : List JVal) (d : Payload),
       (buildRow headers d).length = headers.length) := by
  have hr := exec_eq r w now cfg s hist hname hcfg hs hh
  have hpa : processAttachment r w = (r, w) := processAttachment_none r w hatt
  rw [hpa] at hr
  refine ⟨?_, ?_, ?_, ?_⟩
  · intro hact
    have happ := applyAction_create r cfg s (s.rows.headD []) hact
    refine ⟨_, by rw [hr]; simp only [happ]; rfl, ?_⟩
    exact getSheet_set_then_history _ _ _ _ _
      (getSheet_some_valid w cfg.spreadsheetId _ s hs)
      (lookupConfig_name_ne_history _ cfg hcfg)
  · intro ds hact hds
    have happ := applyAction_batchCreate r cfg s (s.rows.headD []) ds hact hds
    refine ⟨_, by rw [hr]; simp only [happ]; rfl, ?_⟩
    exact getSheet_set_then_history _ _ _ _ _
      (getSheet_some_valid w cfg.spreadsheetId _ s hs)
      (lookupConfig_name_ne_history _ cfg hcfg)
  · intro headers d j hj
    rw [buildRow_get? headers d j hj]
    cases hv : lookupNorm d (norm (headers.getD j (JVal.jstr "")).toJSString) with
    | none => simp [orEmpty]
    | some v => simp [orEmpty]
  · intro headers d
    exact buildRow_length headers d

/-- C3 counterexample: a synchronous `update` command carrying an attachment
still has the attachment persisted to the attachments folder — the executor
processes attachments for *any* action, so attachment persistence is not
restricted to `create`. -/
theorem c3_counterexample :
    exUpdAttReq.action = "update" ∧
    exUpdAttReq.attachment.isSome = true ∧
    _processSingleRequest exUpdAttReq exW3 0 = .ok exW3After ∧
    ((alGet exW3.drive.folders TASK_ATTACHMENTS_FOLDER_NAME).getD []).length = 0 ∧
    ((alGet exW3After.drive.folders TASK_ATTACHMENTS_FOLDER_NAME).getD []).length = 1 := by
  exact ⟨rfl, rfl, rfl, rfl, rfl⟩

/-- C3 (amended): in the queued drain path, attachment persistence is
restricted to single `create` actions — an entry whose action is not
`create`, a malformed entry, or an empty cell never touches the Drive state.
In the synchronous executor, by contrast, *any* command carrying an
attachment that reaches the attachment block (the sheet name, table
configuration, target sheet and History sheet all resolve) has the
attachment decoded and persisted to the attachments folder, whether the
command subsequently succeeds or fails (`execSt` keeps the world on error
paths; `execSt_agrees` ties it to `_processSingleRequest`); for a `create`
with a payload present, the share URL of the persisted file is injected
under the fixed field `'Attachment URL'` into `newData` before the appended
row is built. -/
theorem c3_attachment_scope (now : Nat) :
    (∀ (nh : List String) (acc : PrepAcc) (r : Request), ¬(r.action = "create") →
       (prepEntry nh now acc (QEntry.good r)).2.2 = acc.2.2) ∧
    (∀ (nh : List String) (acc : PrepAcc) (s : String),
       prepEntry nh now acc (QEntry.bad s) = acc) ∧
    (∀ (nh : List String) (acc : PrepAcc), prepEntry nh now acc QEntry.empty = acc) ∧
    (∀ (r : Request) (w : World) (cfg : SheetConfig) (s hist : Sheet) (a : Attachment),
       ¬(jsTrim r.sheetName = "") →
       lookupConfig (jsTrim r.sheetName) = some cfg →
       w.getSheet cfg.spreadsheetId (jsTrim r.sheetName) = some s →
       w.getSheet MASTER_SHEET_ID "History" = some hist →
       r.attachment = some a →
       (execSt r w now).2.drive = (drivePersist w.drive a).1) ∧
    (∀ (r : Request) (w : World) (cfg : SheetConfig) (s hist : Sheet) (a : Attachment)
       (nd : Payload),
       r.action = "create" →
       ¬(jsTrim r.sheetName = "") →
       lookupConfig (jsTrim r.sheetName) = some cfg →
       w.getSheet cfg.spreadsheetId (jsTrim r.sheetName) = some s →
       w.getSheet MASTER_SHEET_ID "History" = some hist →
       r.attachment = some a →
       r.newData = some nd →
       ∃ w', _processSingleRequest r w now = .ok w' ∧
         w'.drive = (drivePersist w.drive a).1 ∧
         w'.getSheet cfg.spreadsheetId (jsTrim r.sheetName) =
           some ⟨s.rows ++ [buildRow (s.rows.headD [])
                 (jsSet nd "Attachment URL" (.jstr (drivePersist w.drive a).2))]⟩) ∧
    (∀ (r : Request) (w : World) (a : Attachment) (w' : World),
       r.attachment = some a → _processSingleRequest r w now = .ok w' →
       w'.drive = (drivePersist w.drive a).1) := by
  refine ⟨?_, fun nh acc s => rfl, fun nh acc => rfl, ?_, ?_, ?_⟩
  · intro nh acc r hra
    by_cases hval : (r.sheetName == "Done Task Status" &&
        (r.action == "create" || r.action == "batchCreate")) = true
    · have hcb : (r.action == "create") = false := by
        cases e : r.action == "create"
        · rfl
        · exact absurd (eq_of_beq e) hra
      simp only [prepEntry, hval, Bool.not_true, Bool.false_eq_true, if_false]
      rw [foldl_prepElement_drive nh r hcb]
    · have hval' : (r.sheetName == "Done Task Status" &&
          (r.action == "create" || r.action == "batchCreate")) = false := by
        revert hval
        cases r.sheetName == "Done Task Status" &&
              (r.action == "create" || r.action == "batchCreate") <;> simp
      simp [prepEntry, hval']
  · intro r w cfg s hist a hname hcfg hs hh hat
    unfold execSt
    dsimp only
    simp only [if_neg hname, hcfg, hs, hh]
    rcases hap : applyAction (processAttachment r w).1 cfg s (s.rows.headD []) with m | s' <;>
      simp only [hap]
    · exact processAttachment_some_drive r w a hat
    · rw [setSheet_drive, setSheet_drive]
      exact processAttachment_some_drive r w a hat
  · intro r w cfg s hist a nd hact hname hcfg hs hh hat hnd
    have hr := exec_eq r w now cfg s hist hname hcfg hs hh
    have ha' : (processAttachment r w).1.action = "create" := by
      rw [processAttachment_action]; exact hact
    have hnd' : (processAttachment r w).1.newData =
        some (jsSet nd "Attachment URL" (.jstr (drivePersist w.drive a).2)) := by
      simp [processAttachment, hat, hnd]
    have happ := applyAction_create (processAttachment r w).1 cfg s (s.rows.headD []) ha'
    rw [hnd'] at happ
    simp only [Option.getD_some] at happ
    refine ⟨_, by rw [hr]; simp only [happ]; rfl, ?_, ?_⟩
    · rw [setSheet_drive, setSheet_drive]
      exact processAttachment_some_drive r w a hat
    · exact getSheet_set_then_history _ _ _ _ _
        (getSheet_some_valid w cfg.spreadsheetId _ s hs)
        (lookupConfig_name_ne_history _ cfg hcfg)
  · intro r w a w' hat he
    rw [exec_ok_drive r w now w' he, processAttachment_some_drive r w a hat]

/-! ## Witnesses -/

/-- Witness for C1 at concrete inputs: a `create` for `'Done Task Status'` is
acknowledged as queued, and a `delete` for `'Task'` leaves the queue alone. -/
theorem c1_classifier_routing_witness :
    queuedCond exQReq = true ∧
    (doPost exQReq exW8 0).1 = ⟨"success", "Request queued successfully."⟩ ∧
    queuedCond exDelReq = false ∧
    (doPost exDelReq exW8 0).2.queue = exW8.queue :=
  ⟨rfl, ((c1_classifier_routing exQReq exW8 0).1.mp rfl).1, rfl,
   ((c1_classifier_routing exDelReq exW8 0).2 rfl).1⟩

/-- Witness for C2 on a two-entry queue with both destination sheets present. -/
theorem c2_commit_rule_witness :
    exWQ.queue = some [QEntry.good exQReq, QEntry.bad "oops"] ∧
    (processQueue exWQ 7).queue =
      some (if ¬([QEntry.good exQReq, QEntry.bad "oops"] = []) ∧
              (exWQ.getSheet MASTER_SHEET_ID "Done Task Status" = none ∨
               exWQ.getSheet MASTER_SHEET_ID "History" = none)
            then [QEntry.good exQReq, QEntry.bad "oops"]
            else [QEntry.good exQReq, QEntry.bad "oops"].drop
                   (min [QEntry.good exQReq, QEntry.bad "oops"].length BATCH_SIZE)) :=
  ⟨rfl, c2_commit_rule exWQ [QEntry.good exQReq, QEntry.bad "oops"] 7 rfl⟩

/-- Witness for C3 (amended): a failing update-with-attachment still
persists the file (the state-passing run ends in an error yet the Drive
holds the file), and a create-with-attachment builds its row from the
URL-augmented payload. -/
theorem c3_attachment_scope_witness :
    exUpdAttMissReq.attachment = some exAtt ∧
    (execSt exUpdAttMissReq exW3 0).1.isSome = true ∧
    (execSt exUpdAttMissReq exW3 0).2.drive = (drivePersist exW3.drive exAtt).1 ∧
    exCreateAttReq.newData = some [("task", JVal.jstr "hello")] ∧
    (∃ w', _processSingleRequest exCreateAttReq exW3 0 = .ok w' ∧
       w'.drive = (drivePersist exW3.drive exAtt).1 ∧
       w'.getSheet exTaskCfg.spreadsheetId (jsTrim exCreateAttReq.sheetName) =
         some ⟨exW3TaskSheet.rows ++ [buildRow (exW3TaskSheet.rows.headD [])
               (jsSet [("task", JVal.jstr "hello")] "Attachment URL"
                 (.jstr (drivePersist exW3.drive exAtt).2))]⟩) :=
  ⟨rfl, rfl,
   (c3_attachment_scope 0).2.2.2.1 exUpdAttMissReq exW3 exTaskCfg exW3TaskSheet exHistSheet
     exAtt (by decide) rfl rfl rfl rfl,
   rfl,
   (c3_attachment_scope 0).2.2.2.2.1 exCreateAttReq exW3 exTaskCfg exW3TaskSheet exHistSheet
     exAtt [("task", JVal.jstr "hello")] rfl (by decide) rfl rfl rfl rfl rfl⟩

/-- Witness for C4 at a concrete update on `'Master Data'` (match row found
at data index 1; the payload carries the read-only `pc` column). -/
theorem c4_update_partial_semantics_witness :
    exUpdReq.action = "update" ∧
    ¬(jsTrim exUpdReq.sheetName = "") ∧
    findRow exMDSheet exMDCfg exUpdReq.matchValue = .ok ((1 : Int) + 1) ∧
    (∃ w', _processSingleRequest exUpdReq exW4 0 = .ok w' ∧
       w'.getSheet exMDCfg.spreadsheetId (jsTrim exUpdReq.sheetName) =
         some ⟨exMDSheet.rows.set 1 (updateCells (exMDSheet.rows.headD [])
                exMDCfg.readOnlyColumns exUpdReq.updatedData (exMDSheet.rows.getD 1 []))⟩) :=
  ⟨rfl, by decide, rfl,
   (c4_update_partial_semantics exUpdReq exW4 0 exMDCfg exMDSheet exHistSheet
      rfl (by decide) rfl rfl rfl).2.1 1 rfl⟩

/-- Witness for C5 (amended) at the falsy-payload `create`. -/
theorem c5_create_row_construction_witness :
    exCreateFalsyReq.action = "create" ∧
    exCreateFalsyReq.attachment = none ∧
    (∃ w', _processSingleRequest exCreateFalsyReq exW5 0 = .ok w' ∧
       w'.getSheet exTaskCfg.spreadsheetId (jsTrim exCreateFalsyReq.sheetName) =
         some ⟨exFlagSheet.rows ++
               [buildRow (exFlagSheet.rows.headD []) (exCreateFalsyReq.newData.getD [])]⟩) :=
  ⟨rfl, rfl,
   (c5_create_row_construction exCreateFalsyReq exW5 0 exTaskCfg exFlagSheet exHistSheet
      (by decide) rfl rfl rfl rfl).1 rfl⟩

/-- Witness for C6 (amended) on the completion-table configuration. -/
theorem c6_bottom_most_lookup_witness :
    resolveMatchIndex exDtsSheet exDtsCfg = .ok 0 ∧
    (findRow exDtsSheet exDtsCfg "t9" = .ok (-1) ↔
       ∀ j, 1 ≤ j → j < exDtsSheet.rows.length →
         rowMatches exDtsSheet.rows 0 (norm "t9") j = false) :=
  ⟨rfl, (c6_bottom_most_lookup exDtsSheet exDtsCfg "t9" 0 rfl).2⟩

/-- Witness for C7: a malformed entry in the middle of a batch contributes
nothing to the prepared rows. -/
theorem c7_entry_isolation_witness :
    entryBad (QEntry.bad "oops") = true ∧
    prepBatch ["task id"] exDrive0 7 ([QEntry.good exQReq] ++ QEntry.bad "oops" :: []) =
      prepBatch ["task id"] exDrive0 7 ([QEntry.good exQReq] ++ []) :=
  ⟨rfl, (c7_entry_isolation ["task id"] exDrive0 7 [QEntry.good exQReq] []
           (QEntry.bad "oops") rfl).1⟩

/-- Witness for C8 (amended): the matching delete removes the bottom-most
matching data row (index 2) of the duplicate-bearing `'Task'` sheet. -/
theorem c8_idempotent_delete_witness :
    exDelReq.action = "delete" ∧
    findRow exTaskSheet exTaskCfg exDelReq.matchValue = .ok ((2 : Int) + 1) ∧
    (∃ w', _processSingleRequest exDelReq exW8 0 = .ok w' ∧
       w'.getSheet exTaskCfg.spreadsheetId (jsTrim exDelReq.sheetName) =
         some ⟨exTaskSheet.rows.eraseIdx 2⟩) :=
  ⟨rfl, rfl,
   (c8_idempotent_delete exDelReq exW8 0 exTaskCfg exTaskSheet exHistSheet
      rfl (by decide) rfl rfl rfl).2 2 rfl⟩

/-- Witness for C9 on a refreshed list with one pending and one completed task. -/
theorem c9_inflight_reconciliation_witness :
    (exTasks.map (fun t => t.id)).Nodup ∧
    ("a" ∈ cleanupInFlight ["a", "b", "c"] exTasks ↔
       ("a" ∈ ["a", "b", "c"] ∧
        ∃ t, t ∈ exTasks ∧ t.id = "a" ∧ emptyActual t.actual = true)) :=
  ⟨by decide, (c9_inflight_reconciliation ["a", "b", "c"] exTasks (by decide)).1 "a"⟩

/-- Witness for C10 at a concrete no-match delete carrying a history record. -/
theorem c10_noop_delete_still_logs_witness :
    exDelMissReq.action = "delete" ∧
    findRow exDtsDataSheet exDtsCfg exDelMissReq.matchValue = .ok (-1) ∧
    (∃ w', _processSingleRequest exDelMissReq exWD 0 = .ok w' ∧
       w'.getSheet exDtsCfg.spreadsheetId (jsTrim exDelMissReq.sheetName) =
         some exDtsDataSheet ∧
       w'.getSheet MASTER_SHEET_ID "History" =
         some ⟨exHistSheet.rows ++ (collectHistory exDelMissReq).map (histRow 0)⟩) :=
  ⟨rfl, rfl,
   c10_noop_delete_still_logs exDelMissReq exWD 0 exDtsCfg exDtsDataSheet exHistSheet
     rfl (by decide) rfl rfl rfl rfl⟩

end AllTask
